import Mathlib

/-!
Shallow embedding of `scripts/esim/esim.py` (the ESIM model for natural
language inference, built on the mxnet gluon tensor substrate).

Tensors are represented with explicit dimensions as data together with a
total entry function over ℚ; an operation's output dimensions are computed
by the operation itself, exactly as the tensor library computes shapes.
The mxnet operator namespace `F` that every gluon `hybrid_forward` receives
is embedded as a record `TensorOps` of the scalar nonlinearities the model
needs (`exp`, `sigmoid`, `tanh`); everything else (batch_dot, softmax,
concat, broadcasting, pooling) is defined below with its standard
mathematical semantics.  Stochastic layers (Dropout) and normalization
layers (BatchNorm) are embedded with their inference-time semantics:
Dropout is the identity, BatchNorm is the feature-wise affine map obtained
from its (learned) statistics and scale/shift parameters.
-/

/-- A batched 3-d tensor of rationals: shape (batch, dim1, dim2) with a total
entry function.  Out-of-shape indices are simply never consulted by the
operations below. -/
structure Tensor3 where
  batch : ℕ
  dim1 : ℕ
  dim2 : ℕ
  entry : ℕ → ℕ → ℕ → ℚ

/-- A batched 2-d tensor of rationals: shape (batch, dim). -/
structure Tensor2 where
  batch : ℕ
  dim : ℕ
  entry : ℕ → ℕ → ℚ

/-- A batched integer token-id tensor: shape (batch, len). -/
structure TokenTensor where
  batch : ℕ
  len : ℕ
  tok : ℕ → ℕ → ℕ

/-- The scalar nonlinearities supplied by the tensor substrate (the `F`
namespace argument of mxnet's `hybrid_forward`). -/
structure TensorOps where
  exp : ℚ → ℚ
  sigmoid : ℚ → ℚ
  tanh : ℚ → ℚ

/-! ### Generic tensor operations (mxnet operator semantics) -/

/-- `F.batch_dot(x, y, transpose_b=True)`: per-batch `x · yᵗ`,
shape (batch, x.dim1, y.dim1). -/
def batchDotTB (x y : Tensor3) : Tensor3 :=
  ⟨x.batch, x.dim1, y.dim1,
    fun b i j => ∑ k in Finset.range x.dim2, x.entry b i k * y.entry b j k⟩

/-- `F.batch_dot(x, y)`: per-batch `x · y`, shape (batch, x.dim1, y.dim2);
the contraction runs over `x.dim2` (equal to `y.dim1` on shape-valid inputs). -/
def batchDot (x y : Tensor3) : Tensor3 :=
  ⟨x.batch, x.dim1, y.dim2,
    fun b i j => ∑ k in Finset.range x.dim2, x.entry b i k * y.entry b k j⟩

/-- `F.batch_dot(x, y, transpose_a=True)`: per-batch `xᵗ · y`,
shape (batch, x.dim2, y.dim2); the contraction runs over `x.dim1`. -/
def batchDotTA (x y : Tensor3) : Tensor3 :=
  ⟨x.batch, x.dim2, y.dim2,
    fun b i j => ∑ k in Finset.range x.dim1, x.entry b k i * y.entry b k j⟩

/-- `t + F.expand_dims(m, axis=1)`: the (batch, d2) tensor `m` is inserted as
a middle axis of extent 1 and broadcast-added across `t.dim1`. -/
def addBroadcastAxis1 (t : Tensor3) (m : Tensor2) : Tensor3 :=
  ⟨t.batch, t.dim1, t.dim2, fun b i j => t.entry b i j + m.entry b j⟩

/-- `t + F.expand_dims(m, axis=2)`: the (batch, d1) tensor `m` is inserted as
a last axis of extent 1 and broadcast-added across `t.dim2`. -/
def addBroadcastAxis2 (t : Tensor3) (m : Tensor2) : Tensor3 :=
  ⟨t.batch, t.dim1, t.dim2, fun b i j => t.entry b i j + m.entry b i⟩

/-- `F.softmax(t, axis=-1)`: softmax along the last axis. -/
def softmaxLast (F : TensorOps) (t : Tensor3) : Tensor3 :=
  ⟨t.batch, t.dim1, t.dim2,
    fun b i j =>
      F.exp (t.entry b i j) / ∑ k in Finset.range t.dim2, F.exp (t.entry b i k)⟩

/-- `F.softmax(t, axis=1)`: softmax along the middle axis. -/
def softmaxAxis1 (F : TensorOps) (t : Tensor3) : Tensor3 :=
  ⟨t.batch, t.dim1, t.dim2,
    fun b i j =>
      F.exp (t.entry b i j) / ∑ k in Finset.range t.dim1, F.exp (t.entry b k j)⟩

/-- `F.multiply(x, y)`: elementwise product (shape of the first operand). -/
def mulT3 (x y : Tensor3) : Tensor3 :=
  ⟨x.batch, x.dim1, x.dim2, fun b i j => x.entry b i j * y.entry b i j⟩

/-- `F.subtract(x, y)`: elementwise difference (shape of the first operand). -/
def subT3 (x y : Tensor3) : Tensor3 :=
  ⟨x.batch, x.dim1, x.dim2, fun b i j => x.entry b i j - y.entry b i j⟩

/-- `F.concat(x, y, dim=-1)` on 3-d tensors: the last dimensions add. -/
def concatT3 (x y : Tensor3) : Tensor3 :=
  ⟨x.batch, x.dim1, x.dim2 + y.dim2,
    fun b i j => if j < x.dim2 then x.entry b i j else y.entry b i (j - x.dim2)⟩

/-- `F.concat(x, y, z, dim=-1)` on 3-d tensors: the last dimensions add. -/
def concat3T3 (x y z : Tensor3) : Tensor3 :=
  ⟨x.batch, x.dim1, x.dim2 + y.dim2 + z.dim2,
    fun b i j =>
      if j < x.dim2 then x.entry b i j
      else if j - x.dim2 < y.dim2 then y.entry b i (j - x.dim2)
      else z.entry b i (j - x.dim2 - y.dim2)⟩

/-- `F.concat(x, y, dim=-1)` on 2-d tensors. -/
def concatT2 (x y : Tensor2) : Tensor2 :=
  ⟨x.batch, x.dim + y.dim,
    fun b j => if j < x.dim then x.entry b j else y.entry b (j - x.dim)⟩

/-- `F.transpose(x, axes=(0, 2, 1))`: swap the two non-batch axes. -/
def transpose021 (x : Tensor3) : Tensor3 :=
  ⟨x.batch, x.dim2, x.dim1, fun b i j => x.entry b j i⟩

/-- Maximum of a list of rationals (0 on the empty list, which the model
never consults: pooling inputs have positive extent). -/
def listMaxQ : List ℚ → ℚ
  | [] => 0
  | a :: l => l.foldl max a

/-- `nn.GlobalAvgPool1D()` on an NCW tensor: mean over the last (time) axis,
which collapses to extent 1.  The divisor is the full extent `x.dim2`. -/
def globalAvgPool1D (x : Tensor3) : Tensor3 :=
  ⟨x.batch, x.dim1, 1,
    fun b c _ => (∑ w in Finset.range x.dim2, x.entry b c w) / (x.dim2 : ℚ)⟩

/-- `nn.GlobalMaxPool1D()` on an NCW tensor: maximum over the last (time)
axis, which collapses to extent 1. -/
def globalMaxPool1D (x : Tensor3) : Tensor3 :=
  ⟨x.batch, x.dim1, 1,
    fun b c _ => listMaxQ ((List.range x.dim2).map (x.entry b c))⟩

/-- `F.squeeze(x, axis=-1)` for a 3-d tensor whose last extent is 1. -/
def squeezeLast (x : Tensor3) : Tensor2 :=
  ⟨x.batch, x.dim1, fun b c => x.entry b c 0⟩

/-! ### Layers -/

/-- `nn.Embedding(input_dim, output_dim)`: a lookup table with `inputDim`
rows of width `outputDim`. -/
structure EmbeddingLayer where
  inputDim : ℕ
  outputDim : ℕ
  weight : ℕ → ℕ → ℚ

/-- Row lookup of the embedding table for every token position (the
computation performed when all ids are in range). -/
def EmbeddingLayer.applyCore (L : EmbeddingLayer) (x : TokenTensor) : Tensor3 :=
  ⟨x.batch, x.len, L.outputDim, fun b t j => L.weight (x.tok b t) j⟩

/-- All token ids of `x` are strictly below `v`. -/
def TokenTensor.inRangeB (x : TokenTensor) (v : ℕ) : Bool :=
  (List.range x.batch).all fun b => (List.range x.len).all fun t => x.tok b t < v

/-- Modelled from the spec: the embedding lookup of `nn.Embedding` (framework
code, not part of this repository's source) raises an index-out-of-range
error on a token id `≥ input_dim` instead of wrapping or clamping; embedded
as `none` on any out-of-range id. -/
def EmbeddingLayer.applyChecked (L : EmbeddingLayer) (x : TokenTensor) :
    Option Tensor3 :=
  if x.inRangeB L.inputDim then some (L.applyCore x) else none

/-- `nn.BatchNorm(axis=-1)` in inference mode: the feature-wise affine map
`v ↦ gamma⬝(v − mean)⬝invstd + beta`, where `invstd` is the precomputed
reciprocal standard deviation `1/sqrt(var + eps)` of the running statistics. -/
structure BatchNormLayer where
  gamma : ℕ → ℚ
  beta : ℕ → ℚ
  mean : ℕ → ℚ
  invstd : ℕ → ℚ

def bnScalar (L : BatchNormLayer) (j : ℕ) (v : ℚ) : ℚ :=
  L.gamma j * ((v - L.mean j) * L.invstd j) + L.beta j

def BatchNormLayer.applyT3 (L : BatchNormLayer) (x : Tensor3) : Tensor3 :=
  ⟨x.batch, x.dim1, x.dim2, fun b t j => bnScalar L j (x.entry b t j)⟩

def BatchNormLayer.applyT2 (L : BatchNormLayer) (x : Tensor2) : Tensor2 :=
  ⟨x.batch, x.dim, fun b j => bnScalar L j (x.entry b j)⟩

/-- `nn.Dropout(rate)` in inference mode: the identity map (the rate only
matters during training, which is outside the forward graph modelled here). -/
def dropoutT3 (_rate : ℚ) (x : Tensor3) : Tensor3 := x

def dropoutT2 (_rate : ℚ) (x : Tensor2) : Tensor2 := x

/-- `nn.Dense(units, flatten=False)`: a per-position affine map with an
optional fused activation, specified by its `units` output width, weight
matrix and bias. -/
structure DenseLayer where
  units : ℕ
  weight : ℕ → ℕ → ℚ
  bias : ℕ → ℚ

/-- Rectified linear unit. -/
def reluQ (v : ℚ) : ℚ := max v 0

/-- Dense layer with fused activation applied to every (batch, position)
vector of a 3-d tensor (`flatten=False`). -/
def DenseLayer.applyT3Act (L : DenseLayer) (act : ℚ → ℚ) (x : Tensor3) : Tensor3 :=
  ⟨x.batch, x.dim1, L.units,
    fun b t j =>
      act ((∑ k in Finset.range x.dim2, L.weight j k * x.entry b t k) + L.bias j)⟩

/-- Dense layer (no activation) applied to a 2-d tensor. -/
def DenseLayer.applyT2 (L : DenseLayer) (x : Tensor2) : Tensor2 :=
  ⟨x.batch, L.units,
    fun b j => (∑ k in Finset.range x.dim, L.weight j k * x.entry b k) + L.bias j⟩

/-- `nn.ELU()` with the default alpha = 1: `v` for `v > 0`, else `exp v − 1`. -/
def eluQ (F : TensorOps) (v : ℚ) : ℚ := if 0 < v then v else F.exp v - 1

def eluT2 (F : TensorOps) (x : Tensor2) : Tensor2 :=
  ⟨x.batch, x.dim, fun b j => eluQ F (x.entry b j)⟩

/-! ### Bidirectional LSTM (`rnn.LSTM(nhidden_units, bidirectional=True)`)

One direction is a standard LSTM recurrence with gates i, f, g, o (the
mxnet gate order), sigmoid on i/f/o, tanh on g and on the cell state; the
i2h and h2h biases are folded into one bias per gate, which does not change
the computed function.  The bidirectional layer runs one direction forward
and one on the time-reversed input and concatenates the two hidden states
per timestep, `[forward, backward]`. -/

structure LSTMDir where
  hidden : ℕ
  wI : ℕ → ℕ → ℚ
  wF : ℕ → ℕ → ℚ
  wG : ℕ → ℕ → ℚ
  wO : ℕ → ℕ → ℚ
  uI : ℕ → ℕ → ℚ
  uF : ℕ → ℕ → ℚ
  uG : ℕ → ℕ → ℚ
  uO : ℕ → ℕ → ℚ
  bI : ℕ → ℚ
  bF : ℕ → ℚ
  bG : ℕ → ℚ
  bO : ℕ → ℚ

/-- Pre-activation of one gate: `W·x + U·h + b` at output coordinate `j`. -/
def gateSum (w u : ℕ → ℕ → ℚ) (bias : ℕ → ℚ) (nIn nH j : ℕ)
    (xv h : ℕ → ℚ) : ℚ :=
  (∑ k in Finset.range nIn, w j k * xv k)
    + (∑ k in Finset.range nH, u j k * h k) + bias j

/-- One LSTM cell step: from input vector `xv` and state `(h, c)` to the next
state. -/
def lstmCell (F : TensorOps) (L : LSTMDir) (nIn : ℕ) (xv h c : ℕ → ℚ) :
    (ℕ → ℚ) × (ℕ → ℚ) :=
  let gi := fun j => F.sigmoid (gateSum L.wI L.uI L.bI nIn L.hidden j xv h)
  let gf := fun j => F.sigmoid (gateSum L.wF L.uF L.bF nIn L.hidden j xv h)
  let gg := fun j => F.tanh (gateSum L.wG L.uG L.bG nIn L.hidden j xv h)
  let go := fun j => F.sigmoid (gateSum L.wO L.uO L.bO nIn L.hidden j xv h)
  let c' := fun j => gf j * c j + gi j * gg j
  (fun j => go j * F.tanh (c' j), c')

/-- The `(h, c)` state of one direction after consuming the first `t`
timesteps of batch element `b` (zero initial state). -/
def LSTMDir.statesAux (F : TensorOps) (L : LSTMDir) (x : Tensor3) (b : ℕ) :
    ℕ → (ℕ → ℚ) × (ℕ → ℚ)
  | 0 => (fun _ => 0, fun _ => 0)
  | t + 1 =>
    let s := LSTMDir.statesAux F L x b t
    lstmCell F L x.dim2 (fun k => x.entry b t k) s.1 s.2

/-- Per-timestep hidden-state output of one direction run left to right. -/
def LSTMDir.fwdOut (F : TensorOps) (L : LSTMDir) (x : Tensor3) : Tensor3 :=
  ⟨x.batch, x.dim1, L.hidden, fun b t j => (LSTMDir.statesAux F L x b (t + 1)).1 j⟩

/-- Reverse a 3-d tensor along its time (middle) axis. -/
def revTime (x : Tensor3) : Tensor3 :=
  ⟨x.batch, x.dim1, x.dim2, fun b t j => x.entry b (x.dim1 - 1 - t) j⟩

structure BiLSTM where
  fwd : LSTMDir
  bwd : LSTMDir

/-- The bidirectional LSTM: per timestep, the forward direction's hidden
state concatenated with the backward direction's. -/
def BiLSTM.apply (F : TensorOps) (L : BiLSTM) (x : Tensor3) : Tensor3 :=
  let fo := LSTMDir.fwdOut F L.fwd x
  let bo := revTime (LSTMDir.fwdOut F L.bwd (revTime x))
  ⟨x.batch, x.dim1, L.fwd.hidden + L.bwd.hidden,
    fun b t j =>
      if j < L.fwd.hidden then fo.entry b t j else bo.entry b t (j - L.fwd.hidden)⟩

/-! ### The ESIM model -/

/-- The parameters created by `ESIM.__init__`, in declaration order:
embedding table, shared embedding batch-norm, first bidirectional LSTM, the
projection block (batch-norm, dropout, dense-with-relu), second
bidirectional LSTM, and the classifier head `fc_encoder` (batch-norm,
dropout, dense, elu, batch-norm, dropout, dense).  Each field is a single
instance: the forward pass below applies the same field to both the premise
and the hypothesis path, exactly as the source applies its single layer
objects. -/
structure ESIMParams where
  embedding_encoder : EmbeddingLayer
  batch_norm : BatchNormLayer
  lstm_encoder1 : BiLSTM
  projBN : BatchNormLayer
  projDense : DenseLayer
  lstm_encoder2 : BiLSTM
  fcBN1 : BatchNormLayer
  fcDense1 : DenseLayer
  fcBN2 : BatchNormLayer
  fcDense2 : DenseLayer
  dropout : ℚ

/-- `E = F.batch_dot(x1, x2, transpose_b=True)`: the raw attention scores. -/
def ESIM.attentionScores (x1 x2 : Tensor3) : Tensor3 := batchDotTB x1 x2

/-- `weight1 = F.softmax(attention + F.expand_dims(mask2, axis=1), axis=-1)`. -/
def ESIM.weight1 (F : TensorOps) (x1 x2 : Tensor3) (mask2 : Tensor2) : Tensor3 :=
  softmaxLast F (addBroadcastAxis1 (ESIM.attentionScores x1 x2) mask2)

/-- `weight2 = F.softmax(attention + F.expand_dims(mask1, axis=2), axis=1)`. -/
def ESIM.weight2 (F : TensorOps) (x1 x2 : Tensor3) (mask1 : Tensor2) : Tensor3 :=
  softmaxAxis1 F (addBroadcastAxis2 (ESIM.attentionScores x1 x2) mask1)

/-- `ESIM._soft_attention_align`: returns
`(batch_dot(weight1, x2), batch_dot(weight2, x1, transpose_a=True))`. -/
def ESIM.softAttentionAlign (F : TensorOps) (x1 x2 : Tensor3)
    (mask1 mask2 : Tensor2) : Tensor3 × Tensor3 :=
  (batchDot (ESIM.weight1 F x1 x2 mask2) x2,
   batchDotTA (ESIM.weight2 F x1 x2 mask1) x1)

/-- `ESIM._submul`: `F.concat(F.multiply(x1, x2), F.subtract(x1, x2), dim=-1)`. -/
def ESIM.submul (_F : TensorOps) (x1 x2 : Tensor3) : Tensor3 :=
  concatT3 (mulT3 x1 x2) (subT3 x1 x2)

/-- `ESIM._pooling`: squeeze of global average pool concatenated with squeeze
of global max pool, on an NCW tensor. -/
def ESIM.pooling (_F : TensorOps) (x : Tensor3) : Tensor2 :=
  concatT2 (squeezeLast (globalAvgPool1D x)) (squeezeLast (globalMaxPool1D x))

/-- The projection block `self.projection`:
BatchNorm → Dropout → Dense(nhidden_units, activation='relu'). -/
def ESIM.projection (_F : TensorOps) (p : ESIMParams) (x : Tensor3) : Tensor3 :=
  DenseLayer.applyT3Act p.projDense reluQ
    (dropoutT3 p.dropout (BatchNormLayer.applyT3 p.projBN x))

/-- The classifier head `self.fc_encoder`:
BatchNorm → Dropout → Dense(ndense_units) → ELU → BatchNorm → Dropout →
Dense(nclasses). -/
def ESIM.fcEncoder (F : TensorOps) (p : ESIMParams) (x : Tensor2) : Tensor2 :=
  DenseLayer.applyT2 p.fcDense2
    (dropoutT2 p.dropout
      (BatchNormLayer.applyT2 p.fcBN2
        (eluT2 F
          (DenseLayer.applyT2 p.fcDense1
            (dropoutT2 p.dropout (BatchNormLayer.applyT2 p.fcBN1 x))))))

/-- One input path up to the first encoder, from a raw embedding:
`lstm_encoder1(batch_norm(embedded))`. -/
def ESIM.encodePath (F : TensorOps) (p : ESIMParams) (eraw : Tensor3) : Tensor3 :=
  BiLSTM.apply F p.lstm_encoder1 (BatchNormLayer.applyT3 p.batch_norm eraw)

/-- One input path from token ids up to the first encoder. -/
def ESIM.inputEncodeTok (F : TensorOps) (p : ESIMParams) (x : TokenTensor) :
    Tensor3 :=
  ESIM.encodePath F p (p.embedding_encoder.applyCore x)

/-- The composition stage for one path:
`lstm_encoder2(projection(concat(enc, align, submul(enc, align))))`. -/
def ESIM.composeStage (F : TensorOps) (p : ESIMParams) (enc align : Tensor3) :
    Tensor3 :=
  BiLSTM.apply F p.lstm_encoder2
    (ESIM.projection F p (concat3T3 enc align (ESIM.submul F enc align)))

/-- The aggregation stage for one path: transpose NWC → NCW, then pooling. -/
def ESIM.aggStage (F : TensorOps) (x : Tensor3) : Tensor2 :=
  ESIM.pooling F (transpose021 x)

/-- Everything after the attention alignment, given the two encoded paths and
the pair of aligned tensors. -/
def ESIM.afterAlign (F : TensorOps) (p : ESIMParams) (x1e x2e : Tensor3)
    (al : Tensor3 × Tensor3) : Tensor2 :=
  ESIM.fcEncoder F p
    (concatT2 (ESIM.aggStage F (ESIM.composeStage F p x1e al.1))
              (ESIM.aggStage F (ESIM.composeStage F p x2e al.2)))

/-- Everything after the two embedding lookups. -/
def ESIM.afterEmbed (F : TensorOps) (p : ESIMParams) (e1 e2 : Tensor3)
    (mask1 mask2 : Tensor2) : Tensor2 :=
  ESIM.afterAlign F p (ESIM.encodePath F p e1) (ESIM.encodePath F p e2)
    (ESIM.softAttentionAlign F (ESIM.encodePath F p e1) (ESIM.encodePath F p e2)
      mask1 mask2)

/-- `ESIM.hybrid_forward`: the full forward pass.  The embedding lookup of
each input may fail on an out-of-range token id, in evaluation order. -/
def ESIM.hybridForward (F : TensorOps) (p : ESIMParams) (x1 x2 : TokenTensor)
    (mask1 mask2 : Tensor2) : Option Tensor2 :=
  (p.embedding_encoder.applyChecked x1).bind fun e1 =>
    (p.embedding_encoder.applyChecked x2).map fun e2 =>
      ESIM.afterEmbed F p e1 e2 mask1 mask2

/-- The value of the forward pass when both lookups succeed. -/
def ESIM.forwardCore (F : TensorOps) (p : ESIMParams) (x1 x2 : TokenTensor)
    (mask1 mask2 : Tensor2) : Tensor2 :=
  ESIM.afterEmbed F p (p.embedding_encoder.applyCore x1)
    (p.embedding_encoder.applyCore x2) mask1 mask2

/-- Modelled from the spec: a hypothetical variant with "independently
trained copies" of the per-path layers — premise-path layers taken from
`pA`, hypothesis-path layers from `pB` (the classifier head, applied to the
joint vector, from `pA`).  Used only to state the parameter-sharing claim:
the source forward pass coincides with this variant at `pA = pB`. -/
def ESIM.hybridForwardTwoCopies (F : TensorOps) (pA pB : ESIMParams)
    (x1 x2 : TokenTensor) (mask1 mask2 : Tensor2) : Option Tensor2 :=
  (pA.embedding_encoder.applyChecked x1).bind fun e1 =>
    (pB.embedding_encoder.applyChecked x2).map fun e2 =>
      ESIM.fcEncoder F pA
        (concatT2
          (ESIM.aggStage F (ESIM.composeStage F pA (ESIM.encodePath F pA e1)
            (ESIM.softAttentionAlign F (ESIM.encodePath F pA e1)
              (ESIM.encodePath F pB e2) mask1 mask2).1))
          (ESIM.aggStage F (ESIM.composeStage F pB (ESIM.encodePath F pB e2)
            (ESIM.softAttentionAlign F (ESIM.encodePath F pA e1)
              (ESIM.encodePath F pB e2) mask1 mask2).2)))

/-! ### The constructor (`ESIM.__init__`)

The constructor only creates layer objects; each gluon layer constructor
records its hyperparameters (deferring all shape work to parameter
initialization) and the source performs no validation of its own, so the
constructor is embedded as total record construction.  Sizes are taken as
integers so that non-positive configurations are expressible. -/

/-- The configuration recorded by the layer constructors called in
`ESIM.__init__`, in source order. -/
structure ESIMInitRecord where
  embedInputDim : ℤ
  embedOutputDim : ℤ
  lstm1Hidden : ℤ
  lstm1Bidirectional : Bool
  projDropoutRate : ℚ
  projDenseUnits : ℤ
  lstm2Hidden : ℤ
  lstm2Bidirectional : Bool
  fcDropoutRate : ℚ
  fcDense1Units : ℤ
  fcDense2Units : ℤ

/-- `ESIM.__init__(vocab_size, nword_dims, nhidden_units, ndense_units,
nclasses, dropout)`: stores every argument in the corresponding layer
object; no check is performed on any of them. -/
def ESIM.init (vocab_size nword_dims nhidden_units ndense_units nclasses : ℤ)
    (dropout : ℚ) : ESIMInitRecord :=
  ⟨vocab_size, nword_dims, nhidden_units, true, dropout, nhidden_units,
   nhidden_units, true, dropout, ndense_units, nclasses⟩

/-! ### Concrete instances used by witnesses -/

/-- A concrete substrate instance (the shape and structure facts below hold
for every substrate, so the identity nonlinearities suffice for witnesses). -/
def opsId : TensorOps := ⟨id, id, id⟩

def lstmDirT : LSTMDir :=
  ⟨1, fun _ _ => 0, fun _ _ => 0, fun _ _ => 0, fun _ _ => 0,
      fun _ _ => 0, fun _ _ => 0, fun _ _ => 0, fun _ _ => 0,
      fun _ => 0, fun _ => 0, fun _ => 0, fun _ => 0⟩

def biT : BiLSTM := ⟨lstmDirT, lstmDirT⟩

def bnT : BatchNormLayer := ⟨fun _ => 1, fun _ => 0, fun _ => 0, fun _ => 1⟩

def dense1T : DenseLayer := ⟨1, fun _ _ => 0, fun _ => 0⟩

def dense2T : DenseLayer := ⟨2, fun _ _ => 0, fun _ => 0⟩

def embT : EmbeddingLayer := ⟨1, 1, fun _ _ => 0⟩

/-- A tiny concrete parameter set: vocab 1, 1-dim embeddings, 1 hidden unit,
1 dense unit, 2 classes, dropout 0. -/
def pTest : ESIMParams :=
  ⟨embT, bnT, biT, bnT, dense1T, biT, bnT, dense1T, bnT, dense2T, 0⟩

def tokA : TokenTensor := ⟨1, 1, fun _ _ => 0⟩

def tokOOB : TokenTensor := ⟨1, 1, fun _ _ => 5⟩

def maskZ : Tensor2 := ⟨1, 1, fun _ _ => 0⟩

def constT3 (v : ℚ) : Tensor3 := ⟨1, 1, 1, fun _ _ _ => v⟩

/-- A (1, 1, 2) tensor whose single channel is constantly 5 over its two
timesteps. -/
def constSeqT3 : Tensor3 := ⟨1, 1, 2, fun _ _ _ => 5⟩

/-! ### Helper lemmas -/

lemma applyChecked_some {L : EmbeddingLayer} {x : TokenTensor} {e : Tensor3}
    (h : L.applyChecked x = some e) : e = L.applyCore x := by
  unfold EmbeddingLayer.applyChecked at h
  cases hb : x.inRangeB L.inputDim
  · rw [hb] at h; cases h
  · rw [hb] at h; exact (Option.some.inj h).symm

lemma foldl_max_const (v : ℚ) :
    ∀ (l : List ℚ) (a : ℚ), (∀ y ∈ l, y = v) → a = v → l.foldl max a = v
  | [], _, _, ha => ha
  | y :: l, a, h, ha => by
    have hy : y = v := h y (List.mem_cons_self y l)
    have hm : max a y = v := by rw [ha, hy, max_self]
    exact foldl_max_const v l (max a y) (fun z hz => h z (List.mem_cons_of_mem y hz)) hm

lemma listMaxQ_const (l : List ℚ) (v : ℚ) (hne : l ≠ [])
    (h : ∀ y ∈ l, y = v) : listMaxQ l = v := by
  cases l with
  | nil => exact absurd rfl hne
  | cons a t =>
    exact foldl_max_const v t a (fun z hz => h z (List.mem_cons_of_mem a hz))
      (h a (List.mem_cons_self a t))

lemma exists_oob_inRangeB_false {x : TokenTensor} {v : ℕ}
    (h : ∃ b, b < x.batch ∧ ∃ t, t < x.len ∧ v ≤ x.tok b t) :
    x.inRangeB v = false := by
  obtain ⟨b, hb, t, ht, hv⟩ := h
  by_contra hne
  have htrue : x.inRangeB v = true := by
    cases hx : x.inRangeB v
    · exact absurd hx hne
    · rfl
  have hall : ∀ b' ∈ List.range x.batch, ∀ t' ∈ List.range x.len, x.tok b' t' < v := by
    simpa [TokenTensor.inRangeB, List.all_eq_true] using htrue
  exact absurd (hall b (List.mem_range.2 hb) t (List.mem_range.2 ht)) (not_lt.2 hv)

lemma hybridForward_some {F : TensorOps} {p : ESIMParams} {x1 x2 : TokenTensor}
    {m1 m2 : Tensor2} {out : Tensor2}
    (h : ESIM.hybridForward F p x1 x2 m1 m2 = some out) :
    out = ESIM.forwardCore F p x1 x2 m1 m2 := by
  unfold ESIM.hybridForward at h
  cases h1 : p.embedding_encoder.applyChecked x1 with
  | none => rw [h1] at h; cases h
  | some e1 =>
    cases h2 : p.embedding_encoder.applyChecked x2 with
    | none => rw [h1, h2] at h; cases h
    | some e2 =>
      rw [h1, h2] at h
      have he1 := applyChecked_some h1
      have he2 := applyChecked_some h2
      subst he1; subst he2
      exact (Option.some.inj h).symm

/-- The representation entering the final dense layer of the classifier
head (everything of `fc_encoder` except its last `nn.Dense(nclasses)`). -/
def ESIM.fcPenultimate (F : TensorOps) (p : ESIMParams) (x : Tensor2) : Tensor2 :=
  dropoutT2 p.dropout
    (BatchNormLayer.applyT2 p.fcBN2
      (eluT2 F
        (DenseLayer.applyT2 p.fcDense1
          (dropoutT2 p.dropout (BatchNormLayer.applyT2 p.fcBN1 x)))))

/-! ### Claims -/

/-- C1, counterexample: on feature width H = 1 the composed tensor
`concat(enc, aligned, submul(enc, aligned))` has feature width 4, not
3 × H = 3: the claim's "exactly three times H" fails on the code. -/
theorem esim_compose_width_cex :
    (concat3T3 (constT3 2) (constT3 3)
        (ESIM.submul opsId (constT3 2) (constT3 3))).dim2 = 4 ∧
      ¬ (concat3T3 (constT3 2) (constT3 3)
          (ESIM.submul opsId (constT3 2) (constT3 3))).dim2
        = 3 * (constT3 2).dim2 := by
  exact ⟨rfl, by decide⟩

/-- C1 (amended): `submul` concatenates the elementwise product with the
elementwise difference, so it is 2 × H wide, and the composed tensor
`concat(original, aligned, submul)` is exactly FOUR times H wide (H + H +
2H); the projection block then reduces the feature width back to its dense
layer's `units` (= `nhidden_units` as constructed). -/
theorem esim_compose_width (F : TensorOps) (x a : Tensor3) (p : ESIMParams)
    (ha : a.dim2 = x.dim2) :
    (ESIM.submul F x a).dim2 = 2 * x.dim2 ∧
    (∀ b t j, j < x.dim2 →
      (ESIM.submul F x a).entry b t j = x.entry b t j * a.entry b t j) ∧
    (∀ b t j, x.dim2 ≤ j → j < 2 * x.dim2 →
      (ESIM.submul F x a).entry b t j
        = x.entry b t (j - x.dim2) - a.entry b t (j - x.dim2)) ∧
    (concat3T3 x a (ESIM.submul F x a)).dim2 = 4 * x.dim2 ∧
    (ESIM.projection F p (concat3T3 x a (ESIM.submul F x a))).dim2
      = p.projDense.units := by
  refine ⟨?_, ?_, ?_, ?_, rfl⟩
  · show x.dim2 + x.dim2 = 2 * x.dim2
    omega
  · intro b t j hj
    simp [ESIM.submul, concatT3, mulT3, subT3, hj]
  · intro b t j hj1 _
    have hj3 : ¬ j < x.dim2 := not_lt.2 hj1
    simp [ESIM.submul, concatT3, mulT3, subT3, hj3]
  · show x.dim2 + a.dim2 + (x.dim2 + x.dim2) = 4 * x.dim2
    omega

/-- C1 witness: a concrete instance of the amended claim at H = 1. -/
theorem esim_compose_width_witness :
    (constT3 3).dim2 = (constT3 2).dim2 ∧
    ((ESIM.submul opsId (constT3 2) (constT3 3)).dim2 = 2 * (constT3 2).dim2 ∧
     (∀ b t j, j < (constT3 2).dim2 →
       (ESIM.submul opsId (constT3 2) (constT3 3)).entry b t j
         = (constT3 2).entry b t j * (constT3 3).entry b t j) ∧
     (∀ b t j, (constT3 2).dim2 ≤ j → j < 2 * (constT3 2).dim2 →
       (ESIM.submul opsId (constT3 2) (constT3 3)).entry b t j
         = (constT3 2).entry b t (j - (constT3 2).dim2)
           - (constT3 3).entry b t (j - (constT3 2).dim2)) ∧
     (concat3T3 (constT3 2) (constT3 3)
        (ESIM.submul opsId (constT3 2) (constT3 3))).dim2 = 4 * (constT3 2).dim2 ∧
     (ESIM.projection opsId pTest (concat3T3 (constT3 2) (constT3 3)
        (ESIM.submul opsId (constT3 2) (constT3 3)))).dim2
       = pTest.projDense.units) :=
  ⟨rfl, esim_compose_width opsId (constT3 2) (constT3 3) pTest rfl⟩

/-- C2: attention direction 1.  The raw scores are `E = x1 · x2ᵗ` per batch,
of shape (batch, L1, L2); `mask2` is added broadcast across the L1 axis;
softmax runs along the L2 axis, giving `weight1` of shape (batch, L1, L2);
and `x1_align = weight1 · x2` has shape (batch, L1, H). -/
theorem esim_soft_attention_direction1 (F : TensorOps) (x1 x2 : Tensor3)
    (mask1 mask2 : Tensor2) :
    ((ESIM.attentionScores x1 x2).batch = x1.batch ∧
     (ESIM.attentionScores x1 x2).dim1 = x1.dim1 ∧
     (ESIM.attentionScores x1 x2).dim2 = x2.dim1) ∧
    (∀ b i j, (ESIM.attentionScores x1 x2).entry b i j
       = ∑ k in Finset.range x1.dim2, x1.entry b i k * x2.entry b j k) ∧
    ((ESIM.weight1 F x1 x2 mask2).batch = x1.batch ∧
     (ESIM.weight1 F x1 x2 mask2).dim1 = x1.dim1 ∧
     (ESIM.weight1 F x1 x2 mask2).dim2 = x2.dim1) ∧
    (∀ b i j, (ESIM.weight1 F x1 x2 mask2).entry b i j
       = F.exp ((ESIM.attentionScores x1 x2).entry b i j + mask2.entry b j)
         / ∑ k in Finset.range x2.dim1,
             F.exp ((ESIM.attentionScores x1 x2).entry b i k + mask2.entry b k)) ∧
    (ESIM.softAttentionAlign F x1 x2 mask1 mask2).1
      = batchDot (ESIM.weight1 F x1 x2 mask2) x2 ∧
    ((ESIM.softAttentionAlign F x1 x2 mask1 mask2).1.batch = x1.batch ∧
     (ESIM.softAttentionAlign F x1 x2 mask1 mask2).1.dim1 = x1.dim1 ∧
     (ESIM.softAttentionAlign F x1 x2 mask1 mask2).1.dim2 = x2.dim2) :=
  ⟨⟨rfl, rfl, rfl⟩, fun _ _ _ => rfl, ⟨rfl, rfl, rfl⟩, fun _ _ _ => rfl, rfl,
   ⟨rfl, rfl, rfl⟩⟩

/-- C3: attention direction 2.  `mask1` is added to the same raw scores `E`
broadcast across the L2 axis; softmax runs along the L1 axis, giving
`weight2` of shape (batch, L1, L2); and `x2_align = weight2ᵗ · x1` (first
operand transposed) has shape (batch, L2, H). -/
theorem esim_soft_attention_direction2 (F : TensorOps) (x1 x2 : Tensor3)
    (mask1 mask2 : Tensor2) :
    ((ESIM.weight2 F x1 x2 mask1).batch = x1.batch ∧
     (ESIM.weight2 F x1 x2 mask1).dim1 = x1.dim1 ∧
     (ESIM.weight2 F x1 x2 mask1).dim2 = x2.dim1) ∧
    (∀ b i j, (ESIM.weight2 F x1 x2 mask1).entry b i j
       = F.exp ((ESIM.attentionScores x1 x2).entry b i j + mask1.entry b i)
         / ∑ k in Finset.range x1.dim1,
             F.exp ((ESIM.attentionScores x1 x2).entry b k j + mask1.entry b k)) ∧
    (ESIM.softAttentionAlign F x1 x2 mask1 mask2).2
      = batchDotTA (ESIM.weight2 F x1 x2 mask1) x1 ∧
    ((ESIM.softAttentionAlign F x1 x2 mask1 mask2).2.batch = x1.batch ∧
     (ESIM.softAttentionAlign F x1 x2 mask1 mask2).2.dim1 = x2.dim1 ∧
     (ESIM.softAttentionAlign F x1 x2 mask1 mask2).2.dim2 = x1.dim2) :=
  ⟨⟨rfl, rfl, rfl⟩, fun _ _ _ => rfl, rfl, ⟨rfl, rfl, rfl⟩⟩

/-- C4: for every parameter set whose final dense layer has `n` output
units (the configured `nclasses`) and every successful forward call, the
output has shape exactly (batch of the premise input, n) — in particular it
does not depend on the two sequence lengths, over which the statement is
universally quantified. -/
theorem esim_output_shape (F : TensorOps) (p : ESIMParams)
    (x1 x2 : TokenTensor) (m1 m2 : Tensor2) (n : ℕ)
    (hn : p.fcDense2.units = n) (out : Tensor2)
    (h : ESIM.hybridForward F p x1 x2 m1 m2 = some out) :
    out.batch = x1.batch ∧ out.dim = n := by
  have hc := hybridForward_some h
  subst hc
  exact ⟨rfl, hn⟩

/-- C4 witness: a concrete forward call with batch 1 and nclasses 2. -/
theorem esim_output_shape_witness :
    (pTest.fcDense2.units = 2 ∧
      ESIM.hybridForward opsId pTest tokA tokA maskZ maskZ
        = some (ESIM.forwardCore opsId pTest tokA tokA maskZ maskZ)) ∧
    ((ESIM.forwardCore opsId pTest tokA tokA maskZ maskZ).batch = tokA.batch ∧
     (ESIM.forwardCore opsId pTest tokA tokA maskZ maskZ).dim = 2) :=
  ⟨⟨rfl, rfl⟩,
   esim_output_shape opsId pTest tokA tokA maskZ maskZ 2 rfl _ rfl⟩

/-- C5: parameter sharing.  The forward pass coincides (definitionally) with
the two-independent-copies variant instantiated with the SAME parameter
record for both paths: the embedding table, embedding batch-norm, LSTM-1
and LSTM-2 applied to the hypothesis path are the very instances applied to
the premise path. -/
theorem esim_shared_parameters (F : TensorOps) (p : ESIMParams)
    (x1 x2 : TokenTensor) (m1 m2 : Tensor2) :
    ESIM.hybridForward F p x1 x2 m1 m2
      = ESIM.hybridForwardTwoCopies F p p x1 x2 m1 m2 := rfl

/-- C6: the classifier head is exactly
BatchNorm → Dropout → Dense(ndense_units) → ELU → BatchNorm → Dropout →
Dense(nclasses); its output entries are an affine function (weights and
bias of the final dense layer) of the penultimate representation — raw
logits, with no activation or normalization after the final dense layer —
and the forward pass applies it to the concatenation of the two pooled
aggregates. -/
theorem esim_classifier_head (F : TensorOps) (p : ESIMParams) (v : Tensor2)
    (x1e x2e : Tensor3) (al : Tensor3 × Tensor3) :
    ESIM.fcEncoder F p v
      = DenseLayer.applyT2 p.fcDense2
          (dropoutT2 p.dropout
            (BatchNormLayer.applyT2 p.fcBN2
              (eluT2 F
                (DenseLayer.applyT2 p.fcDense1
                  (dropoutT2 p.dropout (BatchNormLayer.applyT2 p.fcBN1 v)))))) ∧
    (∀ b j, (ESIM.fcEncoder F p v).entry b j
       = (∑ k in Finset.range (ESIM.fcPenultimate F p v).dim,
            p.fcDense2.weight j k * (ESIM.fcPenultimate F p v).entry b k)
         + p.fcDense2.bias j) ∧
    ESIM.afterAlign F p x1e x2e al
      = ESIM.fcEncoder F p
          (concatT2 (ESIM.aggStage F (ESIM.composeStage F p x1e al.1))
                    (ESIM.aggStage F (ESIM.composeStage F p x2e al.2))) :=
  ⟨rfl, fun _ _ => rfl, rfl⟩

/-- C7: pooling concatenates the average pool and the max pool over the
whole time axis into a vector of width 2 × channels, and on a channel that
is constant with value `v` over the whole (positive-length) time axis both
the average-pooled entry and the max-pooled entry equal `v`. -/
theorem esim_pooling_const (F : TensorOps) (x : Tensor3) (b c : ℕ) (v : ℚ)
    (hc : c < x.dim1) (hW : 0 < x.dim2)
    (hconst : ∀ w < x.dim2, x.entry b c w = v) :
    (ESIM.pooling F x).dim = 2 * x.dim1 ∧
    (ESIM.pooling F x).entry b c = v ∧
    (ESIM.pooling F x).entry b (x.dim1 + c) = v := by
  refine ⟨?_, ?_, ?_⟩
  · show x.dim1 + x.dim1 = 2 * x.dim1
    omega
  · show (if c < x.dim1 then _ else _) = v
    rw [if_pos hc]
    show (∑ w in Finset.range x.dim2, x.entry b c w) / (x.dim2 : ℚ) = v
    have hsum : ∑ w in Finset.range x.dim2, x.entry b c w = (x.dim2 : ℚ) * v := by
      rw [Finset.sum_congr rfl fun w hw => hconst w (Finset.mem_range.1 hw)]
      rw [Finset.sum_const, Finset.card_range, nsmul_eq_mul]
    rw [hsum]
    exact mul_div_cancel_left₀ v (Nat.cast_ne_zero.2 hW.ne')
  · show (if x.dim1 + c < x.dim1 then _ else _) = v
    rw [if_neg (by omega)]
    show listMaxQ ((List.range x.dim2).map (x.entry b (x.dim1 + c - x.dim1))) = v
    rw [Nat.add_sub_cancel_left]
    refine listMaxQ_const _ v ?_ ?_
    · simp [List.map_eq_nil_iff, List.range_eq_nil, hW.ne']
    · intro y hy
      obtain ⟨w, hw, rfl⟩ := List.mem_map.1 hy
      exact hconst w (List.mem_range.1 hw)

/-- C7 witness: a (1, 1, 2) tensor constantly 5 on its channel. -/
theorem esim_pooling_const_witness :
    ((0 : ℕ) < constSeqT3.dim1 ∧ (0 : ℕ) < constSeqT3.dim2 ∧
      (∀ w < constSeqT3.dim2, constSeqT3.entry 0 0 w = 5)) ∧
    ((ESIM.pooling opsId constSeqT3).dim = 2 * constSeqT3.dim1 ∧
     (ESIM.pooling opsId constSeqT3).entry 0 0 = 5 ∧
     (ESIM.pooling opsId constSeqT3).entry 0 (constSeqT3.dim1 + 0) = 5) :=
  ⟨⟨by decide, by decide, fun _ _ => rfl⟩,
   esim_pooling_const opsId constSeqT3 0 0 5 (by decide) (by decide)
     (fun _ _ => rfl)⟩

/-- C8: a forward call on inputs containing a token id at or above the
embedding table's `input_dim` (the configured vocab size) yields the
index-out-of-range error (`none`); no output — wrapped, clamped or
otherwise — is produced. -/
theorem esim_oob_token_error (F : TensorOps) (p : ESIMParams)
    (x1 x2 : TokenTensor) (m1 m2 : Tensor2)
    (h : (∃ b, b < x1.batch ∧ ∃ t, t < x1.len ∧
            p.embedding_encoder.inputDim ≤ x1.tok b t)
       ∨ (∃ b, b < x2.batch ∧ ∃ t, t < x2.len ∧
            p.embedding_encoder.inputDim ≤ x2.tok b t)) :
    ESIM.hybridForward F p x1 x2 m1 m2 = none := by
  cases h with
  | inl h1 =>
    have hb1 := exists_oob_inRangeB_false h1
    simp [ESIM.hybridForward, EmbeddingLayer.applyChecked, hb1]
  | inr h2 =>
    have hb2 := exists_oob_inRangeB_false h2
    cases hb1 : x1.inRangeB p.embedding_encoder.inputDim
    · simp [ESIM.hybridForward, EmbeddingLayer.applyChecked, hb1]
    · simp [ESIM.hybridForward, EmbeddingLayer.applyChecked, hb1, hb2]

/-- C8 witness: vocab size 1, a premise containing token id 5. -/
theorem esim_oob_token_error_witness :
    (∃ b, b < tokOOB.batch ∧ ∃ t, t < tokOOB.len ∧
        pTest.embedding_encoder.inputDim ≤ tokOOB.tok b t) ∧
    ESIM.hybridForward opsId pTest tokOOB tokA maskZ maskZ = none :=
  ⟨⟨0, by decide, 0, by decide, by decide⟩,
   esim_oob_token_error opsId pTest tokOOB tokA maskZ maskZ
     (Or.inl ⟨0, by decide, 0, by decide, by decide⟩)⟩

/-- C9, counterexample: constructing with vocab_size = −1, all other sizes
0 and dropout = 2 (outside [0, 1)) does not fail: the constructor returns a
configuration record, so no eager configuration error is raised at the
point of violation. -/
theorem esim_init_no_validation_cex :
    ESIM.init (-1) 0 0 0 0 2
      = ⟨-1, 0, 0, true, 2, 0, 0, true, 2, 0, 0⟩ := rfl

/-- C9 (amended): the constructor performs no validation at all — every
argument, including non-positive sizes and out-of-range dropout rates, is
accepted and stored verbatim in the layer configuration; any failure from
an invalid configuration can only surface later (at parameter
initialization or a forward call), not in the constructor. -/
theorem esim_init_stores_unchecked (v w h d c : ℤ) (dr : ℚ) :
    (ESIM.init v w h d c dr).embedInputDim = v ∧
    (ESIM.init v w h d c dr).embedOutputDim = w ∧
    (ESIM.init v w h d c dr).lstm1Hidden = h ∧
    (ESIM.init v w h d c dr).projDropoutRate = dr ∧
    (ESIM.init v w h d c dr).projDenseUnits = h ∧
    (ESIM.init v w h d c dr).lstm2Hidden = h ∧
    (ESIM.init v w h d c dr).fcDropoutRate = dr ∧
    (ESIM.init v w h d c dr).fcDense1Units = d ∧
    (ESIM.init v w h d c dr).fcDense2Units = c :=
  ⟨rfl, rfl, rfl, rfl, rfl, rfl, rfl, rfl, rfl⟩

/-- C10: the masks influence the output only through the soft attention
alignment stage — two forward calls whose attention alignments coincide
produce the same output — while the average pool divides by the full
(padded) time extent and the max pool maximizes over the full (padded) time
extent, so padded positions contribute to the pooled aggregates. -/
theorem esim_masks_only_through_attention :
    (∀ (F : TensorOps) (p : ESIMParams) (x1 x2 : TokenTensor)
        (m1 m2 m1' m2' : Tensor2),
      ESIM.softAttentionAlign F (ESIM.inputEncodeTok F p x1)
          (ESIM.inputEncodeTok F p x2) m1 m2
        = ESIM.softAttentionAlign F (ESIM.inputEncodeTok F p x1)
            (ESIM.inputEncodeTok F p x2) m1' m2' →
      ESIM.hybridForward F p x1 x2 m1 m2
        = ESIM.hybridForward F p x1 x2 m1' m2') ∧
    (∀ (x : Tensor3) (b c w0 : ℕ),
      (globalAvgPool1D x).entry b c w0
        = (∑ w in Finset.range x.dim2, x.entry b c w) / (x.dim2 : ℚ)) ∧
    (∀ (x : Tensor3) (b c w0 : ℕ),
      (globalMaxPool1D x).entry b c w0
        = listMaxQ ((List.range x.dim2).map (x.entry b c))) := by
  refine ⟨?_, fun _ _ _ _ => rfl, fun _ _ _ _ => rfl⟩
  intro F p x1 x2 m1 m2 m1' m2' halign
  unfold ESIM.inputEncodeTok at halign
  cases h1 : p.embedding_encoder.applyChecked x1 with
  | none => simp [ESIM.hybridForward, h1]
  | some e1 =>
    cases h2 : p.embedding_encoder.applyChecked x2 with
    | none => simp [ESIM.hybridForward, h1, h2]
    | some e2 =>
      have he1 := applyChecked_some h1
      have he2 := applyChecked_some h2
      subst he1; subst he2
      unfold ESIM.hybridForward
      rw [h1, h2]
      exact congrArg some (congrArg (ESIM.afterAlign F p _ _) halign)

/-- C10 witness: a concrete instance with coinciding alignments. -/
theorem esim_masks_only_through_attention_witness :
    ESIM.hybridForward opsId pTest tokA tokA maskZ maskZ
      = ESIM.hybridForward opsId pTest tokA tokA maskZ maskZ :=
  esim_masks_only_through_attention.1 opsId pTest tokA tokA maskZ maskZ
    maskZ maskZ rfl
